import Mathlib

/-
  Shallow embedding of app/drizzle/store/blocks/blocksSaga.js.

  Addresses, topic hashes and hex strings are modelled as lists of
  characters so that the case manipulation done by the source
  (toLowerCase, endsWith, replace(/0x/, '')) is explicit. Fallible
  provider and utility calls (getPastLogs, findContractByAddress,
  toChecksumAddress) return Except; the catch block of processBlock is
  modelled by matching on the Except result of the sync derivation.
-/

abbrev Addr := List Char

/-- JavaScript's String.prototype.toLowerCase, per character. -/
def toLowerAddr (a : Addr) : Addr := a.map Char.toLower

/-- JavaScript's account.replace(/0x/, ''): remove the first occurrence
of the substring "0x", leave everything else unchanged. -/
def replaceFirst0x : Addr → Addr
  | [] => []
  | '0' :: 'x' :: rest => rest
  | c :: rest => c :: replaceFirst0x rest

/-- Opaque contract handle, as resolved by drizzle.findContractByAddress. -/
structure Contract where
  id : Nat
deriving DecidableEq

/-- One entry of the contracts subscriptions table: a set of addresses
plus the remaining (opaque) sync parameters, which _.clone copies
through unchanged. -/
structure Subscription where
  addresses : List Addr
  syncParams : Nat
deriving DecidableEq

/-- A transaction of a block: from/to may be absent (the source defaults
them to the empty string with || ''). -/
structure Tx where
  fromAddr : Option Addr
  toAddr : Option Addr
deriving DecidableEq

/-- A log entry returned by web3.eth.getPastLogs. -/
structure Log where
  address : Addr
  topics : List Addr
  logData : Addr
deriving DecidableEq

/-- A full block with transaction bodies. -/
structure Block where
  number : Nat
  transactions : List Tx
deriving DecidableEq

/-- A block header, as delivered by the newBlockHeaders subscription. -/
structure BlockHeader where
  number : Nat
deriving DecidableEq

/-- The events put on the store by the saga (discriminated by type tag
in the source). -/
inductive Event where
  | blocksFailed (error : String)
  | blockReceived (header : BlockHeader)
  | blockFound (b : Block)
  | blockProcessing (b : Block)
  | contractSyncing (c : Contract)
  | batchCallRequest (request : List Subscription)
  | blockFailed (error : String)
  | accountBalancesFetching
  | ethBalanceUpdated (ethBalance : Nat)
deriving DecidableEq

/-- The ambient environment of processBlock: the selected account, the
subscriptions table, drizzle.contracts (values in registration order),
and the external collaborators, each of which may fail. -/
structure Env where
  account : Option Addr
  subscriptions : List Subscription
  contracts : List Contract
  findContractByAddress : Addr → Except String (Option Contract)
  toChecksumAddress : Addr → Except String Addr
  getPastLogs : Nat → Nat → List Addr → Except String (List Log)

/-- contractsPendingSync: a JavaScript object, keys in insertion order. -/
abbrev PendingMap := List (Addr × Option Contract)

/-- JavaScript object assignment obj[k] = v: overwrite in place if the
key exists, else append. -/
def upsert (m : PendingMap) (k : Addr) (v : Option Contract) : PendingMap :=
  if m.any (fun p => p.1 == k) then
    m.map (fun p => if p.1 == k then (k, v) else p)
  else m ++ [(k, v)]

/-- The fixed Transfer event signature the saga watches. -/
def transferTopic : Addr :=
  "0xddf252ad1be2c89b69c2b068fc378daa952ba7f163c4a11628f55a4df523b3ef".toList

def watchedTopics : List Addr := [transferTopic]

/-- checkForTransactions from processBlock: decide whether one log is
relevant to the current account and, if so, record its contract keyed
by the checksummed log address. The source lowercases the topic but
not the account. -/
def checkForTransactions (env : Env) (account : Addr) (m : PendingMap)
    (log : Log) : Except String PendingMap :=
  match log.topics[1]?, log.topics[2]? with
  | some f, some t =>
    if f.isEmpty || t.isEmpty then .ok m
    else
      let fromMatch := (replaceFirst0x account).isSuffixOf (toLowerAddr f)
      let toMatch := (replaceFirst0x account).isSuffixOf (toLowerAddr t)
      if fromMatch || toMatch then do
        let contract ← env.findContractByAddress (toLowerAddr log.address)
        let checksumAddress ← env.toChecksumAddress log.address
        .ok (upsert m checksumAddress contract)
      else .ok m
  | _, _ => .ok m

/-- The fold of checkForTransactions over the returned logs
(the _.each(logs, checkForTransactions) loop). -/
def checkLogs (env : Env) (account : Addr) :
    List Log → PendingMap → Except String PendingMap
  | [], m => .ok m
  | l :: ls, m => do
    let m2 ← checkForTransactions env account m l
    checkLogs env account ls m2

/-- One iteration of the transaction loop: record any contract of
interest keyed by the raw (non-checksummed) address as it appeared
on the transaction. -/
def checkTx (env : Env) (m : PendingMap) (tx : Tx) :
    Except String PendingMap := do
  let fromA := tx.fromAddr.getD []
  let fromContract ← env.findContractByAddress (toLowerAddr fromA)
  let m1 :=
    match fromContract with
    | some c => upsert m fromA (some c)
    | none => m
  let toA := tx.toAddr.getD []
  let toContract ← env.findContractByAddress (toLowerAddr toA)
  match toContract with
  | some c => .ok (upsert m1 toA (some c))
  | none => .ok m1

/-- The for loop over block.transactions. -/
def checkTxs (env : Env) : List Tx → PendingMap → Except String PendingMap
  | [], m => .ok m
  | tx :: txs, m => do
    let m2 ← checkTx env m tx
    checkTxs env txs m2

/-- Building contractsPendingSync for one block: query the logs of this
exact block for the watched topic, scan them, then scan the block's
transactions. -/
def contractsPendingSyncOf (env : Env) (account : Addr) (block : Block) :
    Except String PendingMap := do
  let logs ← env.getPastLogs block.number block.number watchedTopics
  let m ← checkLogs env account logs []
  checkTxs env block.transactions m

/-- Auxiliary for the uniqueness pass of _.intersection: keep the first
occurrence of each value. -/
def dedupFirstAux (seen : List Addr) : List Addr → List Addr
  | [] => []
  | x :: xs =>
    if x ∈ seen then dedupFirstAux seen xs
    else x :: dedupFirstAux (x :: seen) xs

def dedupFirst (l : List Addr) : List Addr := dedupFirstAux [] l

/-- lodash _.intersection on two arrays: the unique values of the first
array that also occur in the second, in first-array order, compared by
exact (case-sensitive) equality. -/
def lodashIntersection (xs ys : List Addr) : List Addr :=
  dedupFirst (xs.filter (fun a => decide (a ∈ ys)))

/-- buildBatchCallRequest from processBlock, as one step of the fold
that accumulates the request array. -/
def buildBatchCallRequest (pending : List Addr) (request : List Subscription)
    (subscription : Subscription) : List Subscription :=
  let matchedAddreses := lodashIntersection subscription.addresses pending
  if matchedAddreses.length ≠ 0 then
    request ++ [{ subscription with addresses := matchedAddreses }]
  else request

/-- The _.each(subscriptions, buildBatchCallRequest) loop. -/
def buildRequest (subscriptions : List Subscription) (pending : List Addr) :
    List Subscription :=
  subscriptions.foldl (buildBatchCallRequest pending) []

/-- Steps 4 to 6 of processBlock: everything inside the try block after
the syncAlways short-circuit, producing the events it would put. -/
def deriveSyncRequest (env : Env) (account : Addr) (block : Block) :
    Except String (List Event) := do
  let contractsPendingSync ← contractsPendingSyncOf env account block
  let contractAddressesPendingSync := contractsPendingSync.map Prod.fst
  .ok [Event.batchCallRequest
    (buildRequest env.subscriptions contractAddressesPendingSync)]

/-- processBlock: the events put for one block. The account check comes
before anything is emitted; BLOCK_PROCESSING comes next; with syncAlways
a CONTRACT_SYNCING per registered contract; otherwise the derived sync
request, with any error of the derivation caught and reported as a
single BLOCK_FAILED. -/
def processBlock (env : Env) (block : Block) (syncAlways : Bool) :
    List Event :=
  match env.account with
  | none => []
  | some account =>
    Event.blockProcessing block ::
      (if syncAlways then env.contracts.map Event.contractSyncing
       else
         match deriveSyncRequest env account block with
         | .ok events => events
         | .error e => [Event.blockFailed e])

/-- Processing a sequence of blocks: one independent processBlock
invocation per block, outputs in block order. -/
def processBlocks (env : Env) : List Block → Bool → List Event
  | [], _ => []
  | b :: bs, syncAlways =>
    processBlock env b syncAlways ++ processBlocks env bs syncAlways

/-
  createBlockChannel: the redux-saga eventChannel produced for the
  newBlockHeaders subscription. An emit on a channel that has seen END
  is dropped; the error callbacks emit BLOCKS_FAILED and then END in
  one synchronous step.
-/

/-- The state of an eventChannel: the events delivered to the consumer
so far, and whether END has been emitted. -/
structure BlockChannel where
  delivered : List Event
  closed : Bool
deriving DecidableEq

/-- emit: dropped once the channel is closed. -/
def chanEmit (ch : BlockChannel) (e : Event) : BlockChannel :=
  if ch.closed then ch else { ch with delivered := ch.delivered ++ [e] }

/-- emit END: closes the channel. -/
def chanEnd (ch : BlockChannel) : BlockChannel := { ch with closed := true }

/-- The callbacks the web3 subscription can invoke: the error callback
(both the subscribe callback with a truthy error and the on error
handler behave identically) and the on data handler. -/
inductive SubCallback where
  | onError (error : String)
  | onData (header : BlockHeader)
deriving DecidableEq

/-- The effect of one callback on the channel, as written in
createBlockChannel. -/
def handleCallback (ch : BlockChannel) : SubCallback → BlockChannel
  | .onError e => chanEnd (chanEmit ch (Event.blocksFailed e))
  | .onData h => chanEmit ch (Event.blockReceived h)

/-- Run a block channel from its fresh state through a sequence of
subscription callbacks. -/
def runBlockChannel (cbs : List SubCallback) : BlockChannel :=
  cbs.foldl handleCallback { delivered := [], closed := false }

/-- Discriminator for BLOCKS_FAILED events. -/
def isBlocksFailedEv : Event → Bool
  | .blocksFailed _ => true
  | _ => false

/-
  createBlockPollChannel: the unsubscribe function stops the
  BlockTracker and swallows any rejection of the stop call with
  .catch(() => {}).
-/

/-- The BlockTracker state that matters to stop: whether an event
subscription is outstanding. -/
structure BlockTracker where
  hasOutstandingSubscription : Bool
deriving DecidableEq

/-- BlockTracker.stop: succeeds when a subscription is outstanding,
rejects otherwise (the situation the source comment describes for a
tracker started and stopped in succession, or never started). -/
def blockTrackerStop (t : BlockTracker) : Except String BlockTracker :=
  if t.hasOutstandingSubscription then
    .ok { hasOutstandingSubscription := false }
  else .error "BlockTracker has no outstanding subscription"

/-- The unsubscribe function of createBlockPollChannel: stop the
tracker, and swallow every error the stop raises. Its total return
type records that no error reaches the caller. -/
def pollChannelUnsubscribe (t : BlockTracker) : BlockTracker :=
  match blockTrackerStop t with
  | .ok t2 => t2
  | .error _ => t

/-
  updateAccountEth and the routing table of blocksSaga.
-/

/-- The web3 handle as used by updateAccountEth: a balance query. -/
structure Web3 where
  getBalance : Addr → Nat

/-- updateAccountEth: put ACCOUNT_BALANCES_FETCHING, then return if
account or web3 is missing, else fetch the balance and put
ETH_BALANCE_UPDATED. -/
def updateAccountEth (account : Option Addr) (web3 : Option Web3) :
    List Event :=
  Event.accountBalancesFetching ::
    (match account, web3 with
     | some acct, some w3 => [Event.ethBalanceUpdated (w3.getBalance acct)]
     | _, _ => [])

/-- The action types blocksSaga wires up. -/
inductive SagaActionType where
  | blocksListening
  | appReady
  | blockReceived
  | blocksPolling
  | blockFound
deriving DecidableEq

/-- The handlers blocksSaga attaches. -/
inductive SagaHandler where
  | callCreateBlockChannel
  | updateAccountEth
  | processBlockHeader
  | callCreateBlockPollChannel
  | processBlock
deriving DecidableEq

/-- The takeLatest/takeEvery wiring of blocksSaga, in source order. -/
def blocksSagaRoutes : List (SagaActionType × SagaHandler) :=
  [ (.blocksListening, .callCreateBlockChannel),
    (.appReady, .updateAccountEth),
    (.blockReceived, .processBlockHeader),
    (.blockReceived, .updateAccountEth),
    (.blocksPolling, .callCreateBlockPollChannel),
    (.blockFound, .processBlock) ]

/-- Discriminator for BLOCK_FAILED events. -/
def isBlockFailedEv : Event → Bool
  | .blockFailed _ => true
  | _ => false

/-
  Concrete instances used to evaluate the embedded code on specific
  inputs.
-/

def wAcct : Addr := ['0', 'x', 'e', 'e']

def wSubA : Subscription := ⟨[['0', 'x', 'a'], ['0', 'x', 'b']], 1⟩

def wSubB : Subscription := ⟨[['0', 'x', 'c']], 2⟩

def wFind : Addr → Except String (Option Contract) := fun a =>
  if a = ['0', 'x', 'b'] ∨ a = ['0', 'x', 'c'] then .ok (some ⟨7⟩)
  else .ok none

def wEnv1 : Env :=
  { account := some wAcct
    subscriptions := [wSubA, wSubB]
    contracts := []
    findContractByAddress := wFind
    toChecksumAddress := fun a => .ok a
    getPastLogs := fun _ _ _ => .ok [] }

def wBlock1 : Block :=
  { number := 5
    transactions := [⟨some ['0', 'x', 'b'], none⟩, ⟨some ['0', 'x', 'c'], none⟩] }

def wPending1 : PendingMap :=
  [(['0', 'x', 'b'], some ⟨7⟩), (['0', 'x', 'c'], some ⟨7⟩)]

def wEnv4 : Env :=
  { account := some wAcct
    subscriptions := []
    contracts := [⟨1⟩, ⟨2⟩]
    findContractByAddress := fun _ => .ok none
    toChecksumAddress := fun a => .ok a
    getPastLogs := fun _ _ _ => .error "provider must not be queried" }

def wBlock4 : Block := ⟨9, []⟩

def wEnv5 : Env :=
  { account := none
    subscriptions := [wSubA]
    contracts := [⟨1⟩]
    findContractByAddress := fun _ => .ok none
    toChecksumAddress := fun a => .ok a
    getPastLogs := fun _ _ _ => .ok [] }

def wEnv6 : Env :=
  { account := some wAcct
    subscriptions := [wSubA]
    contracts := []
    findContractByAddress := fun _ => .ok none
    toChecksumAddress := fun a => .ok a
    getPastLogs := fun _ _ _ => .error "provider down" }

def wEnv10 : Env :=
  { account := some wAcct
    subscriptions := [⟨[['0', 'x', 'z']], 3⟩]
    contracts := []
    findContractByAddress := fun _ => .ok none
    toChecksumAddress := fun a => .ok a
    getPastLogs := fun _ _ _ => .ok [] }

def wBlock10 : Block := ⟨3, []⟩

/-- A checksummed (mixed-case) account, as wallets commonly supply. -/
def cexAccount : Addr := ['0', 'x', 'A', 'B']

/-- The 32-byte padding of cexAccount as a log topic, same hex case. -/
def cexPadded : Addr := ['0', 'x'] ++ List.replicate 62 '0' ++ ['A', 'B']

def cexTopic2 : Addr := ['0', 'x'] ++ List.replicate 62 '0' ++ ['c', 'd']

def cexLog : Log :=
  ⟨['0', 'x', 'c', 'c'], [transferTopic, cexPadded, cexTopic2], []⟩

def cexEnv : Env :=
  { account := some cexAccount
    subscriptions := []
    contracts := []
    findContractByAddress := fun _ => .ok (some ⟨1⟩)
    toChecksumAddress := fun a => .ok a
    getPastLogs := fun _ _ _ => .ok [cexLog] }

/-- A lowercase account. -/
def wAcct2 : Addr := ['0', 'x', 'a', 'b']

def wPad2 : Addr := ['0', 'x'] ++ List.replicate 62 '0' ++ ['a', 'b']

def wLog2 : Log :=
  ⟨['0', 'x', 'D', 'd'], [transferTopic, wPad2, cexTopic2], []⟩

def wEnv2 : Env :=
  { account := some wAcct2
    subscriptions := []
    contracts := []
    findContractByAddress := fun a =>
      if a = ['0', 'x', 'd', 'd'] then .ok (some ⟨4⟩) else .ok none
    toChecksumAddress := fun a => .ok a
    getPastLogs := fun _ _ _ => .ok [wLog2] }

def c3Sub : Subscription := ⟨[['0', 'x', 'a', 'b']], 0⟩

/-- The same address as the subscription's, spelled with a capital A
(the raw form it carries on a transaction after checksumming). -/
def c3TxAddr : Addr := ['0', 'x', 'A', 'b']

def c3Env : Env :=
  { account := some wAcct
    subscriptions := [c3Sub]
    contracts := []
    findContractByAddress := fun a =>
      if a = ['0', 'x', 'a', 'b'] then .ok (some ⟨6⟩) else .ok none
    toChecksumAddress := fun a => .ok a
    getPastLogs := fun _ _ _ => .ok [] }

def c3Block : Block := ⟨2, [⟨some c3TxAddr, none⟩]⟩

def wCbs : List SubCallback :=
  [.onError "sub failed", .onData ⟨3⟩, .onError "late error"]

/-
  Helper lemmas.
-/

/-- The request-building fold is a filter followed by a map: keep the
subscriptions whose intersection with the pending addresses is
non-empty, replacing their addresses field by that intersection. -/
theorem buildRequest_eq_filterMap (subs : List Subscription)
    (pending : List Addr) :
    buildRequest subs pending =
      (subs.filter
          (fun s => decide (lodashIntersection s.addresses pending ≠ []))).map
        (fun s => { s with addresses := lodashIntersection s.addresses pending }) := by
  have key : ∀ (ss : List Subscription) (acc : List Subscription),
      ss.foldl (buildBatchCallRequest pending) acc =
        acc ++ (ss.filter
            (fun s => decide (lodashIntersection s.addresses pending ≠ []))).map
          (fun s => { s with addresses := lodashIntersection s.addresses pending }) := by
    intro ss
    induction ss with
    | nil => intro acc; simp
    | cons s ss ih =>
      intro acc
      rw [List.foldl_cons, ih]
      unfold buildBatchCallRequest
      by_cases h : lodashIntersection s.addresses pending = []
      · simp [h]
      · have hlen : (lodashIntersection s.addresses pending).length ≠ 0 := by
          simpa [List.length_eq_zero] using h
        rw [if_pos hlen]
        simp [h, List.filter_cons]
  unfold buildRequest
  simpa using key subs []

/-- With an account set, processBlock on a failed derivation is
BLOCK_PROCESSING followed by the single BLOCK_FAILED. -/
theorem processBlock_ok_shape (env : Env) (block : Block) (a : Addr)
    (m : PendingMap)
    (ha : env.account = some a)
    (hm : contractsPendingSyncOf env a block = .ok m) :
    processBlock env block false =
      [Event.blockProcessing block,
       Event.batchCallRequest (buildRequest env.subscriptions (m.map Prod.fst))] := by
  have hder : deriveSyncRequest env a block =
      .ok [Event.batchCallRequest (buildRequest env.subscriptions (m.map Prod.fst))] := by
    unfold deriveSyncRequest
    rw [hm]
    rfl
  simp [processBlock, ha, hder]

/-- processBlocks distributes over list append. -/
theorem processBlocks_append (env : Env) (bs1 bs2 : List Block)
    (syncAlways : Bool) :
    processBlocks env (bs1 ++ bs2) syncAlways =
      processBlocks env bs1 syncAlways ++ processBlocks env bs2 syncAlways := by
  induction bs1 with
  | nil => simp [processBlocks]
  | cons b bs ih => simp [processBlocks, ih]

/-
  Claims.
-/

/-- C1: for a block processed with an account set and syncAlways false
whose pending-sync map was derived successfully, the emitted
BatchCallRequest consists, in input subscription order, of exactly the
subscriptions whose addresses meet the pending-sync address set, each
as a copy whose addresses field is replaced by that intersection and
whose other fields are unchanged. -/
theorem processBlock_batchRequest_intersection (env : Env) (block : Block)
    (a : Addr) (m : PendingMap)
    (ha : env.account = some a)
    (hm : contractsPendingSyncOf env a block = .ok m) :
    processBlock env block false =
      [Event.blockProcessing block,
       Event.batchCallRequest
         ((env.subscriptions.filter
             (fun s =>
               decide (lodashIntersection s.addresses (m.map Prod.fst) ≠ []))).map
           (fun s =>
             { s with addresses := lodashIntersection s.addresses (m.map Prod.fst) }))] := by
  rw [processBlock_ok_shape env block a m ha hm, buildRequest_eq_filterMap]

/-- C1 witness: the spec's own example, S1 = {0xa, 0xb}, S2 = {0xc},
pending set {0xb, 0xc}: the request is [S1 with addresses [0xb],
S2 with addresses [0xc]]. -/
theorem processBlock_batchRequest_intersection_witness :
    processBlock wEnv1 wBlock1 false =
      [Event.blockProcessing wBlock1,
       Event.batchCallRequest [⟨[['0', 'x', 'b']], 1⟩, ⟨[['0', 'x', 'c']], 2⟩]] :=
  (processBlock_batchRequest_intersection wEnv1 wBlock1 wAcct wPending1
    rfl rfl).trans (by decide)

/-- C4: with an account set and syncAlways true, the output is
BlockProcessing followed by one ContractSyncing per registered
contract in registration order, and nothing else; the provider and
registry collaborators are never consulted (the output is invariant
under replacing them). -/
theorem processBlock_syncAlways_contracts (env : Env) (block : Block)
    (a : Addr) (ha : env.account = some a) :
    processBlock env block true =
      Event.blockProcessing block :: env.contracts.map Event.contractSyncing
    ∧ ∀ gpl fca tca,
        processBlock
          { env with getPastLogs := gpl, findContractByAddress := fca,
                     toChecksumAddress := tca } block true =
          processBlock env block true := by
  constructor
  · simp [processBlock, ha]
  · intro gpl fca tca
    simp [processBlock, ha]

/-- C4 witness: two registered contracts give exactly two
ContractSyncing events after BlockProcessing, with an erroring
log-query collaborator that is never reached. -/
theorem processBlock_syncAlways_contracts_witness :
    processBlock wEnv4 wBlock4 true =
      [Event.blockProcessing wBlock4, Event.contractSyncing ⟨1⟩,
       Event.contractSyncing ⟨2⟩] :=
  ((processBlock_syncAlways_contracts wEnv4 wBlock4 wAcct rfl).1).trans
    (by decide)

/-- C5: with no account set, processBlock emits nothing at all: the
account check precedes even the BlockProcessing emission. -/
theorem processBlock_noAccount_noop (env : Env) (block : Block)
    (syncAlways : Bool) (ha : env.account = none) :
    processBlock env block syncAlways = [] := by
  simp [processBlock, ha]

/-- C5 witness: a concrete environment with no account produces no
events in either sync mode. -/
theorem processBlock_noAccount_noop_witness :
    processBlock wEnv5 wBlock4 true = [] ∧ processBlock wEnv5 wBlock4 false = [] :=
  ⟨processBlock_noAccount_noop wEnv5 wBlock4 true rfl,
   processBlock_noAccount_noop wEnv5 wBlock4 false rfl⟩

/-- C6: an error while deriving the sync request is caught and reported
as exactly one BlockFailed for that block, after the already-emitted
BlockProcessing; and block processing is per-block independent, so the
trace of a block sequence splits around any one block. -/
theorem processBlock_error_caught (env : Env) (block : Block) (a : Addr)
    (e : String)
    (ha : env.account = some a)
    (he : deriveSyncRequest env a block = .error e) :
    processBlock env block false =
      [Event.blockProcessing block, Event.blockFailed e]
    ∧ (processBlock env block false).countP isBlockFailedEv = 1
    ∧ ∀ (bs1 bs2 : List Block) (syncAlways : Bool),
        processBlocks env (bs1 ++ block :: bs2) syncAlways =
          processBlocks env bs1 syncAlways ++ processBlock env block syncAlways ++
            processBlocks env bs2 syncAlways := by
  have hmain : processBlock env block false =
      [Event.blockProcessing block, Event.blockFailed e] := by
    simp [processBlock, ha, he]
  refine ⟨hmain, ?_, ?_⟩
  · rw [hmain]; rfl
  · intro bs1 bs2 syncAlways
    rw [processBlocks_append]
    simp [processBlocks]

/-- C6 witness: a provider failure during the log fetch yields
BlockProcessing then a single BlockFailed carrying the error. -/
theorem processBlock_error_caught_witness :
    processBlock wEnv6 wBlock1 false =
      [Event.blockProcessing wBlock1, Event.blockFailed "provider down"] :=
  (processBlock_error_caught wEnv6 wBlock1 wAcct "provider down" rfl rfl).1

/-- C10: with an account set, syncAlways false and a successful
derivation, the BatchCallRequest event is emitted even when no
subscription qualifies: its payload is then the empty sequence. -/
theorem processBlock_emptyRequest_emitted (env : Env) (block : Block)
    (a : Addr) (m : PendingMap)
    (ha : env.account = some a)
    (hm : contractsPendingSyncOf env a block = .ok m)
    (hreq : buildRequest env.subscriptions (m.map Prod.fst) = []) :
    processBlock env block false =
      [Event.blockProcessing block, Event.batchCallRequest []] := by
  rw [processBlock_ok_shape env block a m ha hm, hreq]

/-- C10 witness: a subscribed address that never becomes pending still
yields a BatchCallRequest event with an empty payload. -/
theorem processBlock_emptyRequest_emitted_witness :
    processBlock wEnv10 wBlock10 false =
      [Event.blockProcessing wBlock10, Event.batchCallRequest []] :=
  processBlock_emptyRequest_emitted wEnv10 wBlock10 wAcct [] rfl rfl rfl

/-
  C2: log relevance. The source lowercases the topic but compares it
  against the account string as stored, so the match is not
  case-insensitive in the account.
-/

/-- C2 counterexample: with the checksummed account 0xAB, a log whose
topics[1] is exactly the 32-byte padding of that account (same hex
case) satisfies the claim's case-insensitive suffix condition, yet the
code records nothing for it: the lowercased topic no longer ends with
the mixed-case account suffix. -/
theorem checkForTransactions_case_mismatch_cex :
    cexLog.topics[1]? = some cexPadded
    ∧ cexLog.topics[2]? = some cexTopic2
    ∧ cexPadded = ['0', 'x'] ++ List.replicate 62 '0' ++ replaceFirst0x cexAccount
    ∧ (replaceFirst0x (toLowerAddr cexAccount)).isSuffixOf
        (toLowerAddr cexPadded) = true
    ∧ checkForTransactions cexEnv cexAccount [] cexLog = .ok [] :=
  ⟨rfl, rfl, by decide, by decide, rfl⟩

/-- C2 amended: a log is relevant iff both topics[1] and topics[2] are
present and non-empty and at least one of them, lowercased, has the
account string minus its first 0x occurrence — in the exact case the
account is stored in — as a suffix; a relevant log's contract is the
registry lookup of the lowercased log address, recorded keyed by the
checksummed log address. -/
theorem checkForTransactions_suffix_semantics (env : Env) (account : Addr)
    (m : PendingMap) (log : Log) (f t : Addr) (c : Option Contract)
    (ca : Addr)
    (hf : log.topics[1]? = some f) (ht : log.topics[2]? = some t)
    (hfe : f ≠ []) (hte : t ≠ [])
    (hfind : env.findContractByAddress (toLowerAddr log.address) = .ok c)
    (hchk : env.toChecksumAddress log.address = .ok ca) :
    (((replaceFirst0x account).isSuffixOf (toLowerAddr f)
        || (replaceFirst0x account).isSuffixOf (toLowerAddr t)) = true →
      checkForTransactions env account m log = .ok (upsert m ca c))
    ∧ (((replaceFirst0x account).isSuffixOf (toLowerAddr f)
        || (replaceFirst0x account).isSuffixOf (toLowerAddr t)) = false →
      checkForTransactions env account m log = .ok m) := by
  have hfE : f.isEmpty = false := by
    cases f with
    | nil => exact absurd rfl hfe
    | cons x xs => rfl
  have htE : t.isEmpty = false := by
    cases t with
    | nil => exact absurd rfl hte
    | cons x xs => rfl
  constructor
  · intro hb
    simp only [checkForTransactions, hf, ht, hfE, htE, hb, Bool.or_self,
      Bool.false_eq_true, if_false, if_true, hfind, hchk]
    rfl
  · intro hb
    simp [checkForTransactions, hf, ht, hfE, htE, hb]

/-- C2 amended witness: with a lowercase account, the padded-topic log
is relevant and is recorded under its checksummed (here mixed-case)
address with the contract resolved at the lowercased address. -/
theorem checkForTransactions_suffix_semantics_witness :
    checkForTransactions wEnv2 wAcct2 [] wLog2 =
      .ok [(['0', 'x', 'D', 'd'], some ⟨4⟩)] :=
  ((checkForTransactions_suffix_semantics wEnv2 wAcct2 [] wLog2 wPad2
      cexTopic2 (some ⟨4⟩) ['0', 'x', 'D', 'd'] rfl rfl (by decide) (by decide)
      rfl rfl).1 (by decide)).trans rfl

/-
  C3: no address normalization happens before the intersection; the
  intersection is exact case-sensitive string equality.
-/

/-- C3 counterexample: a transaction carries the contract address
spelled 0xAb; the registry resolves it (the lookup lowercases), so the
pending-sync map holds the raw key 0xAb; the subscription lists the
same address as 0xab; the intersection treats the two spellings as
different and the emitted request is empty, although the claim says the
two would be compared as equal. -/
theorem intersection_not_case_normalized_cex :
    toLowerAddr c3TxAddr = ['0', 'x', 'a', 'b']
    ∧ c3Sub.addresses = [toLowerAddr c3TxAddr]
    ∧ contractsPendingSyncOf c3Env wAcct c3Block = .ok [(c3TxAddr, some ⟨6⟩)]
    ∧ processBlock c3Env c3Block false =
        [Event.blockProcessing c3Block, Event.batchCallRequest []] :=
  ⟨by decide, by decide, rfl, rfl⟩

/-- The auxiliary dedup pass returns nothing iff every element was
already seen. -/
theorem dedupFirstAux_eq_nil (l : List Addr) :
    ∀ seen, dedupFirstAux seen l = [] ↔ ∀ a ∈ l, a ∈ seen := by
  induction l with
  | nil => intro seen; simp [dedupFirstAux]
  | cons x xs ih =>
    intro seen
    by_cases hx : x ∈ seen
    · rw [dedupFirstAux, if_pos hx, ih]
      constructor
      · intro h a ha
        rcases List.mem_cons.mp ha with rfl | ha2
        · exact hx
        · exact h a ha2
      · intro h a ha
        exact h a (List.mem_cons_of_mem _ ha)
    · rw [dedupFirstAux, if_neg hx]
      constructor
      · intro h; cases h
      · intro h
        exact absurd (h x (List.mem_cons_self x xs)) hx

/-- The lodash intersection is empty iff no address of the first list
occurs — by exact string equality — in the second. -/
theorem lodashIntersection_eq_nil (xs ys : List Addr) :
    lodashIntersection xs ys = [] ↔ ∀ a ∈ xs, a ∉ ys := by
  unfold lodashIntersection dedupFirst
  rw [dedupFirstAux_eq_nil]
  simp [List.mem_filter]

/-- C3 amended: addresses are not normalized before the intersection:
a subscription contributes to the request exactly when one of its
address strings occurs verbatim (case-sensitively) among the
pending-sync keys, so the request is empty iff no subscription address
coincides exactly with a pending key. -/
theorem buildRequest_exact_equality (subs : List Subscription)
    (pending : List Addr) :
    buildRequest subs pending = [] ↔
      ∀ s ∈ subs, ∀ a ∈ s.addresses, a ∉ pending := by
  rw [buildRequest_eq_filterMap, List.map_eq_nil_iff, List.filter_eq_nil_iff]
  constructor
  · intro h s hs a ha hp
    have h2 := h s hs
    have h3 : lodashIntersection s.addresses pending = [] := by
      by_contra hne
      exact h2 (decide_eq_true hne)
    exact (lodashIntersection_eq_nil _ _).mp h3 a ha hp
  · intro h s hs
    have h3 : lodashIntersection s.addresses pending = [] :=
      (lodashIntersection_eq_nil _ _).mpr (h s hs)
    simp [h3]

/-- C3 amended witness: a subscription address differing from the only
pending key just by letter case contributes nothing. -/
theorem buildRequest_exact_equality_witness :
    buildRequest [⟨[['0', 'x', 'q']], 9⟩] [['0', 'x', 'Q']] = [] :=
  (buildRequest_exact_equality [⟨[['0', 'x', 'q']], 9⟩]
    [['0', 'x', 'Q']]).mpr (by decide)

/-
  C7: the block channel is terminal after BLOCKS_FAILED.
-/

/-- On a closed channel every callback is a no-op. -/
theorem handleCallback_closed (ch : BlockChannel) (hc : ch.closed = true)
    (cb : SubCallback) : handleCallback ch cb = ch := by
  rcases ch with ⟨d, c⟩
  cases hc
  cases cb with
  | onError e => simp [handleCallback, chanEmit, chanEnd]
  | onData h => simp [handleCallback, chanEmit]

/-- A closed channel absorbs every remaining callback. -/
theorem foldl_handleCallback_closed (cbs : List SubCallback)
    (ch : BlockChannel) (hc : ch.closed = true) :
    cbs.foldl handleCallback ch = ch := by
  induction cbs with
  | nil => rfl
  | cons cb cbs ih =>
    rw [List.foldl_cons, handleCallback_closed ch hc cb, ih]

/-- Channel invariant: either the channel is open and no BLOCKS_FAILED
has been delivered, or it is closed and the delivered sequence ends in
its only BLOCKS_FAILED. -/
theorem runBlockChannel_inv (cbs : List SubCallback) (ch : BlockChannel)
    (h : (ch.closed = false ∧ ch.delivered.countP isBlocksFailedEv = 0)
       ∨ (ch.closed = true ∧ ∃ d err,
            ch.delivered = d ++ [Event.blocksFailed err]
            ∧ d.countP isBlocksFailedEv = 0)) :
    ((cbs.foldl handleCallback ch).closed = false
       ∧ (cbs.foldl handleCallback ch).delivered.countP isBlocksFailedEv = 0)
    ∨ ((cbs.foldl handleCallback ch).closed = true
       ∧ ∃ d err, (cbs.foldl handleCallback ch).delivered =
            d ++ [Event.blocksFailed err]
            ∧ d.countP isBlocksFailedEv = 0) := by
  induction cbs generalizing ch with
  | nil => exact h
  | cons cb cbs ih =>
    rw [List.foldl_cons]
    apply ih
    rcases h with ⟨hc, hcount⟩ | ⟨hc, d, err, hd, hcount⟩
    · cases cb with
      | onError e =>
        right
        refine ⟨?_, ch.delivered, e, ?_, hcount⟩
        · simp [handleCallback, chanEnd]
        · simp [handleCallback, chanEmit, chanEnd, hc]
      | onData hdr =>
        left
        constructor
        · simp [handleCallback, chanEmit, hc]
        · simp [handleCallback, chanEmit, hc, List.countP_append, hcount,
            isBlocksFailedEv]
    · rw [handleCallback_closed ch hc cb]
      exact Or.inr ⟨hc, d, err, hd, hcount⟩

/-- Once an error callback is among the callbacks, the resulting
channel is closed. -/
theorem runBlockChannel_error_closes (cbs : List SubCallback)
    (e : String) :
    ∀ ch : BlockChannel, SubCallback.onError e ∈ cbs →
      (cbs.foldl handleCallback ch).closed = true := by
  induction cbs with
  | nil => intro ch he; cases he
  | cons cb cbs ih =>
    intro ch he
    rw [List.foldl_cons]
    rcases List.mem_cons.mp he with heq | hmem
    · subst heq
      have hclosed : (handleCallback ch (SubCallback.onError e)).closed = true := by
        simp [handleCallback, chanEnd]
      rw [foldl_handleCallback_closed cbs _ hclosed]
      exact hclosed
    · exact ih _ hmem

/-- In a list that ends in its only element satisfying p, nothing
follows an element satisfying p. -/
theorem countP_zero_concat_last (xs d l1 l2 : List Event) (err : String)
    (e : Event)
    (hxs : xs = d ++ [Event.blocksFailed err])
    (hd : d.countP isBlocksFailedEv = 0)
    (hsplit : xs = l1 ++ e :: l2)
    (he : isBlocksFailedEv e = true) : l2 = [] := by
  rcases List.eq_nil_or_concat l2 with h2 | ⟨L, b, rfl⟩
  · exact h2
  · exfalso
    have heq : d ++ [Event.blocksFailed err] = (l1 ++ e :: L) ++ [b] := by
      rw [← hxs, hsplit]
      simp
    have hpre : d = l1 ++ e :: L := (List.append_inj' heq rfl).1
    have hmem : e ∈ d := by
      rw [hpre]
      exact List.mem_append_right _ (List.mem_cons_self e L)
    exact (List.countP_eq_zero.mp hd e hmem) he

/-- C7: on any sequence of subscription callbacks, no event is ever
delivered after a BlocksFailed event; and when a subscription error
occurs, exactly one BlocksFailed is delivered and the channel ends up
closed (terminated). -/
theorem createBlockChannel_terminal (cbs : List SubCallback) :
    (∀ l1 e l2, (runBlockChannel cbs).delivered = l1 ++ e :: l2 →
        isBlocksFailedEv e = true → l2 = [])
    ∧ ((∃ err, SubCallback.onError err ∈ cbs) →
        (runBlockChannel cbs).closed = true
          ∧ (runBlockChannel cbs).delivered.countP isBlocksFailedEv = 1) := by
  have hinv :
      ((runBlockChannel cbs).closed = false
         ∧ (runBlockChannel cbs).delivered.countP isBlocksFailedEv = 0)
      ∨ ((runBlockChannel cbs).closed = true
         ∧ ∃ d err, (runBlockChannel cbs).delivered =
              d ++ [Event.blocksFailed err]
              ∧ d.countP isBlocksFailedEv = 0) :=
    runBlockChannel_inv cbs ⟨[], false⟩ (Or.inl ⟨rfl, rfl⟩)
  constructor
  · intro l1 e l2 hsplit he
    rcases hinv with ⟨_, hcount⟩ | ⟨_, d, err, hd, hdc⟩
    · exfalso
      have hmem : e ∈ (runBlockChannel cbs).delivered := by
        rw [hsplit]
        exact List.mem_append_right _ (List.mem_cons_self e l2)
      exact (List.countP_eq_zero.mp hcount e hmem) he
    · exact countP_zero_concat_last (runBlockChannel cbs).delivered d l1 l2
        err e hd hdc hsplit he
  · rintro ⟨err, hmem⟩
    have hclosed : (runBlockChannel cbs).closed = true :=
      runBlockChannel_error_closes cbs err ⟨[], false⟩ hmem
    refine ⟨hclosed, ?_⟩
    rcases hinv with ⟨hopen, _⟩ | ⟨_, d, e2, hdel, hdc⟩
    · rw [hclosed] at hopen
      cases hopen
    · rw [hdel, List.countP_append, hdc]
      rfl

/-- C7 witness: an error callback, a late header, and a second error
give exactly one delivered BlocksFailed and a closed channel. -/
theorem createBlockChannel_terminal_witness :
    (runBlockChannel wCbs).closed = true
    ∧ (runBlockChannel wCbs).delivered.countP isBlocksFailedEv = 1 :=
  (createBlockChannel_terminal wCbs).2 ⟨"sub failed", by decide⟩

/-
  C8: stopping the poll channel never raises and is idempotent.
-/

/-- C8: every error of BlockTracker.stop is swallowed by the poll
channel's unsubscribe (which returns normally, as its total type
records), and unsubscribing twice is the same as unsubscribing once;
afterwards no subscription is outstanding. -/
theorem pollChannelUnsubscribe_swallows_idempotent (t : BlockTracker) :
    (∀ e, blockTrackerStop t = .error e → pollChannelUnsubscribe t = t)
    ∧ pollChannelUnsubscribe (pollChannelUnsubscribe t) =
        pollChannelUnsubscribe t
    ∧ (pollChannelUnsubscribe t).hasOutstandingSubscription = false := by
  rcases t with ⟨b⟩
  cases b
  · exact ⟨fun e _ => rfl, rfl, rfl⟩
  · refine ⟨fun e he => ?_, rfl, rfl⟩
    simp [blockTrackerStop] at he

/-- C8 witness: stopping a never-started (or already-stopped) tracker
errors inside stop, yet unsubscribe returns it unchanged; a started
tracker's unsubscribe is idempotent. -/
theorem pollChannelUnsubscribe_swallows_idempotent_witness :
    pollChannelUnsubscribe ⟨false⟩ = ⟨false⟩
    ∧ pollChannelUnsubscribe (pollChannelUnsubscribe ⟨true⟩) =
        pollChannelUnsubscribe ⟨true⟩ :=
  ⟨(pollChannelUnsubscribe_swallows_idempotent ⟨false⟩).1
      "BlockTracker has no outstanding subscription" rfl,
   (pollChannelUnsubscribe_swallows_idempotent ⟨true⟩).2.1⟩

/-
  C9: the balance updater and its triggers.
-/

/-- C9: updateAccountEth always emits AccountBalancesFetching first and
alone when account or web3 is missing, and follows it with exactly the
fetched BalanceUpdated otherwise; the saga triggers it on the AppReady
signal and on every BlockReceived, and on no other action — in
particular never on BlockFound. -/
theorem updateAccountEth_behavior_and_triggers (a : Addr) (w3 : Web3) :
    (∀ w : Option Web3, updateAccountEth none w =
        [Event.accountBalancesFetching])
    ∧ updateAccountEth (some a) none = [Event.accountBalancesFetching]
    ∧ updateAccountEth (some a) (some w3) =
        [Event.accountBalancesFetching,
         Event.ethBalanceUpdated (w3.getBalance a)]
    ∧ (SagaActionType.appReady, SagaHandler.updateAccountEth) ∈ blocksSagaRoutes
    ∧ (SagaActionType.blockReceived, SagaHandler.updateAccountEth) ∈
        blocksSagaRoutes
    ∧ blocksSagaRoutes.filter
          (fun r => decide (r.2 = SagaHandler.updateAccountEth)) =
        [(SagaActionType.appReady, SagaHandler.updateAccountEth),
         (SagaActionType.blockReceived, SagaHandler.updateAccountEth)] := by
  refine ⟨fun w => ?_, rfl, rfl, by decide, by decide, by decide⟩
  cases w <;> rfl
